import Mathlib

/-!
# Scheduler cache dumper (`pkg/scheduler/internal/cache/debugger/dumper.go`)

A shallow embedding of the `CacheDumper` and of its two formatters,
`printNodeInfo` and `printPod`, followed by the properties of the dump.

Conventions of the embedding:

* a Go pointer `*T` is `Ptr T := Option T`, `none` being `nil`; dereferencing
  `nil` is the run-time panic `Fault.nilDereference`;
* a Go `string` is a Lean `String`; a `strings.Builder` is the `String` written
  so far, `WriteString` appends to it;
* `fmt.Sprintf` is interpreted over the format string for the verbs the file
  uses (`%v`, `%+v`, `%s`), each operand being passed as its rendered text;
* the scheduler log is the list of the statements written so far, oldest first;
  a statement is the message handed to `glog`;
* a function that can panic returns `Except Fault _`; a method of the dumper
  returns that together with the state it leaves behind, so that the statements
  logged before a panic stay logged.
-/

set_option maxRecDepth 20000

namespace Debugger

/-! ## Go run-time -/

/-- The run-time panics the dumper can raise. -/
inductive Fault where
  | nilDereference
  deriving DecidableEq, Repr

/-- A Go pointer: `none` is `nil`. -/
abbrev Ptr (α : Type) : Type := Option α

/-- Selecting a field through a pointer: panics on `nil`. -/
def Ptr.deref {α : Type} : Ptr α → Except Fault α
  | none => .error .nilDereference
  | some a => .ok a

/-- The verbs of `fmt.Sprintf` over the characters of the format: `%v`, `%+v`
and `%s` consume the next operand and write its text (`%!v(MISSING)` when the
operands are used up), `%%` writes a percent sign, every other character is
copied. The calls of this file use these verbs only and pass one operand per
verb, so no other verb and no surplus operand is interpreted. -/
def sprintfChars : List Char → List String → List Char
  | [], _ => []
  | c :: fmt, args =>
    if c = '%' then
      match fmt, args with
      | '+' :: 'v' :: rest, a :: as => a.data ++ sprintfChars rest as
      | '+' :: 'v' :: rest, [] => "%!v(MISSING)".data ++ sprintfChars rest []
      | 'v' :: rest, a :: as => a.data ++ sprintfChars rest as
      | 'v' :: rest, [] => "%!v(MISSING)".data ++ sprintfChars rest []
      | 's' :: rest, a :: as => a.data ++ sprintfChars rest as
      | 's' :: rest, [] => "%!s(MISSING)".data ++ sprintfChars rest []
      | '%' :: rest, as => '%' :: sprintfChars rest as
      | rest, as => '%' :: sprintfChars rest as
    else c :: sprintfChars fmt args
termination_by structural fmt _ => fmt

/-- The function `fmt.Sprintf(format, args...)`, the operands given as text. -/
def Sprintf (format : String) (args : List String) : String :=
  ⟨sprintfChars format.data args⟩

/-! ## Data model -/

/-- The fields of `v1.Pod` the dumper reads: `Name`, `Namespace`, `UID`,
`Status.Phase` and `Status.NominatedNodeName`, all of string kind. -/
structure Pod where
  Name : String
  Namespace : String
  UID : String
  Phase : String
  NominatedNodeName : String
  deriving DecidableEq, Repr

/-- The field of `v1.Node` the dumper reads. -/
structure Node where
  Name : String
  deriving DecidableEq, Repr

/-- Modelled from the spec: the type `cache.NodeInfo` (declared in
`pkg/scheduler/cache`, outside this file): the node object, which may be unset,
the requested and the allocatable resource vectors, and the ordered sequence of
the pods bound to the node. `R` is the type of a resource vector. -/
structure NodeInfo (R : Type) where
  node : Ptr Node
  requestedResource : R
  allocatableResource : R
  pods : List (Ptr Pod)

/-- Modelled from the spec: the accessor `NodeInfo.Node()`, the node object of
the record, `nil` when it is unset (and for a `nil` record). -/
def NodeInfo.Node {R : Type} : Ptr (NodeInfo R) → Ptr Debugger.Node
  | none => none
  | some n => n.node

/-- What the dumper works on: the records `d.cache.Snapshot().Nodes` ranges
over, in the order of the iteration, the sequence `d.podQueue.WaitingPods()`
returns, and the scheduler log. -/
structure State (R : Type) where
  cache : List (Ptr (NodeInfo R))
  podQueue : List (Ptr Pod)
  log : List String

/-- The call `glog.Info(msg)` or `glog.Infof(...)`: one more statement. -/
def State.glogInfo {R : Type} (s : State R) (msg : String) : State R :=
  { s with log := s.log ++ [msg] }

/-! ## The formatters -/

/-- The function `printPod`: parts of a Pod object as a string. -/
def printPod (p : Ptr Pod) : Except Fault String := do
  let p ← p.deref
  pure (Sprintf "name: %v, namespace: %v, uid: %v, phase: %v, nominated node: %v\n"
    [p.Name, p.Namespace, p.UID, p.Phase, p.NominatedNodeName])

/-- The loop `for _, p := range pods { b.WriteString(printPod(p)) }` on the
builder `b`. -/
def writePods : List (Ptr Pod) → String → Except Fault String
  | [], b => .ok b
  | p :: ps, b => do
    let t ← printPod p
    writePods ps (b ++ t)

/-- The function `printNodeInfo`: parts of NodeInfo as a string. `render` is
the `%+v` text of a resource vector. -/
def printNodeInfo {R : Type} (render : R → String) (n : Ptr (NodeInfo R)) :
    Except Fault String := do
  let node ← (NodeInfo.Node n).deref
  let info ← n.deref
  let nodeData :=
    "" ++ Sprintf "\nNode name: %+v\nRequested Resources: %+v\nAllocatable Resources:%+v\nNumber of Pods: %v\nPods:\n"
      [node.Name, render info.requestedResource, render info.allocatableResource,
        toString info.pods.length]
  writePods info.pods nodeData

/-! ## The dumper -/

/-- The loop `for _, info := range snapshot.Nodes { glog.Info(printNodeInfo(info)) }`. -/
def logNodes {R : Type} (render : R → String) :
    List (Ptr (NodeInfo R)) → State R → Except Fault Unit × State R
  | [], s => (.ok (), s)
  | info :: rest, s =>
    match printNodeInfo render info with
    | .error e => (.error e, s)
    | .ok t => logNodes render rest (s.glogInfo t)

/-- The method `DumpNodes`: NodeInfo to the scheduler logs. -/
def DumpNodes {R : Type} (render : R → String) (s : State R) : Except Fault Unit × State R :=
  let snapshot := s.cache
  let s := s.glogInfo "Dump of cached NodeInfo"
  logNodes render snapshot s

/-- The method `DumpSchedulingQueue`: the pods in the scheduling queue to the
scheduler logs. -/
def DumpSchedulingQueue {R : Type} (s : State R) : Except Fault Unit × State R :=
  let waitingPods := s.podQueue
  match writePods waitingPods "" with
  | .error e => (.error e, s)
  | .ok podData => (.ok (), s.glogInfo (Sprintf "Dump of scheduling queue:\n%s" [podData]))

/-- The method `DumpAll`: cached nodes, then the scheduling queue. -/
def DumpAll {R : Type} (render : R → String) (s : State R) : Except Fault Unit × State R :=
  match DumpNodes render s with
  | (.error e, s) => (.error e, s)
  | (.ok (), s) => DumpSchedulingQueue s

/-! ## Well-formed inputs -/

/-- The five fields `printPod` renders, in the order of the format. -/
def Pod.fields (p : Pod) : List String :=
  [p.Name, p.Namespace, p.UID, p.Phase, p.NominatedNodeName]

/-- A node record the formatter can render: the record is there, its node
object is set and none of its pod pointers is `nil`. -/
def NodeInfo.renderable {R : Type} : Ptr (NodeInfo R) → Bool
  | none => false
  | some info => info.node.isSome && info.pods.all Option.isSome

/-- A state the dump can render: every node record is renderable and no pod
pointer of the queue is `nil`. -/
def State.renderable {R : Type} (s : State R) : Bool :=
  s.cache.all NodeInfo.renderable && s.podQueue.all Option.isSome

/-! ## The example scenario of the specification -/

/-- The pod bound to node `n1`: running, no nominated node. -/
def podP1 : Pod := ⟨"p1", "ns1", "u1", "Running", ""⟩

/-- The pending pod, nominated to `n1`. -/
def podP2 : Pod := ⟨"p2", "ns2", "u2", "Pending", "n1"⟩

/-- The node record of `n1`; a resource vector is given by its text. -/
def nodeN1 : NodeInfo String := ⟨some ⟨"n1"⟩, "cpu:2", "cpu:4", [some podP1]⟩

/-- One node in the cache, one pod in the queue, nothing logged yet. -/
def scenario : State String := ⟨[some nodeN1], [some podP2], []⟩

/-- A node record whose node object is unset. -/
def nodeUnset : NodeInfo String := ⟨none, "cpu:2", "cpu:4", []⟩

/-- A pod whose name holds a newline. -/
def podTwoLines : Pod := ⟨"a\nb", "ns", "u", "Running", ""⟩

/-- A pod whose name holds a comma and the namespace label. -/
def podCommaName : Pod := ⟨"a, namespace: b", "c", "u", "Pending", ""⟩

/-- A pod whose namespace holds a comma and the namespace label. -/
def podCommaNamespace : Pod := ⟨"a", "b, namespace: c", "u", "Pending", ""⟩

/-! ## Auxiliary facts -/

@[simp] theorem glogInfo_cache {R : Type} (s : State R) (m : String) :
    (s.glogInfo m).cache = s.cache := rfl

@[simp] theorem glogInfo_podQueue {R : Type} (s : State R) (m : String) :
    (s.glogInfo m).podQueue = s.podQueue := rfl

@[simp] theorem glogInfo_log {R : Type} (s : State R) (m : String) :
    (s.glogInfo m).log = s.log ++ [m] := rfl

theorem printPod_nil : printPod none = .error .nilDereference := rfl

theorem printPod_some (p : Pod) : printPod (some p)
    = .ok ("name: " ++ p.Name ++ ", namespace: " ++ p.Namespace ++ ", uid: " ++ p.UID
        ++ ", phase: " ++ p.Phase ++ ", nominated node: " ++ p.NominatedNodeName ++ "\n") := by
  simp only [printPod, Ptr.deref, Sprintf, bind, Except.bind, pure, Except.pure]
  congr 1
  apply String.ext
  simp [sprintfChars]

theorem printPod_ok_iff (p : Ptr Pod) : (∃ t, printPod p = .ok t) ↔ p.isSome = true := by
  cases p with
  | none => simp [printPod_nil]
  | some p => simp [printPod_some]

theorem writePods_ok (ps : List (Ptr Pod)) (ts : List String)
    (h : List.Forall₂ (fun p t => printPod p = .ok t) ps ts) (b : String) :
    writePods ps b = .ok (b ++ String.join ts) := by
  induction h generalizing b with
  | nil => simp [writePods, String.join_eq]
  | cons hp _ ih =>
    simp only [writePods, hp, bind, Except.bind, ih]
    congr 1
    apply String.ext
    simp [String.data_join]

theorem writePods_ok_iff (ps : List (Ptr Pod)) (b : String) :
    (∃ r, writePods ps b = .ok r) ↔ ps.all Option.isSome = true := by
  induction ps generalizing b with
  | nil => simp [writePods]
  | cons p ps ih =>
    cases p with
    | none => simp [writePods, printPod_nil, bind, Except.bind]
    | some p =>
      simp only [writePods, printPod_some, bind, Except.bind, ih, List.all_cons, Option.isSome_some,
        Bool.true_and]

theorem printNodeInfo_nil {R : Type} (render : R → String) :
    printNodeInfo render none = .error .nilDereference := rfl

theorem printNodeInfo_unset {R : Type} (render : R → String) (info : NodeInfo R)
    (h : info.node = none) : printNodeInfo render (some info) = .error .nilDereference := by
  simp [printNodeInfo, NodeInfo.Node, h, Ptr.deref, bind, Except.bind]

theorem printNodeInfo_set {R : Type} (render : R → String) (info : NodeInfo R) (nd : Node)
    (h : info.node = some nd) :
    printNodeInfo render (some info)
      = writePods info.pods ("\nNode name: " ++ nd.Name ++ "\nRequested Resources: "
          ++ render info.requestedResource ++ "\nAllocatable Resources:"
          ++ render info.allocatableResource ++ "\nNumber of Pods: "
          ++ toString info.pods.length ++ "\nPods:\n") := by
  simp only [printNodeInfo, NodeInfo.Node, h, Ptr.deref, bind, Except.bind, Sprintf]
  congr 1
  apply String.ext
  simp [sprintfChars]

theorem printNodeInfo_ok_iff {R : Type} (render : R → String) (n : Ptr (NodeInfo R)) :
    (∃ t, printNodeInfo render n = .ok t) ↔ NodeInfo.renderable n = true := by
  cases n with
  | none => simp [printNodeInfo_nil, NodeInfo.renderable]
  | some info =>
    cases hnode : info.node with
    | none => simp [printNodeInfo_unset render info hnode, NodeInfo.renderable, hnode]
    | some nd =>
      rw [printNodeInfo_set render info nd hnode, writePods_ok_iff]
      simp [NodeInfo.renderable, hnode]

theorem logNodes_ok {R : Type} (render : R → String) (ns : List (Ptr (NodeInfo R)))
    (ts : List String) (h : List.Forall₂ (fun n t => printNodeInfo render n = .ok t) ns ts)
    (s : State R) :
    logNodes render ns s = (.ok (), { s with log := s.log ++ ts }) := by
  induction h generalizing s with
  | nil => simp [logNodes]
  | cons hn _ ih => simp [logNodes, hn, ih, State.glogInfo]

theorem logNodes_ok_iff {R : Type} (render : R → String) (ns : List (Ptr (NodeInfo R)))
    (s : State R) :
    (logNodes render ns s).1 = .ok () ↔ ns.all NodeInfo.renderable = true := by
  induction ns generalizing s with
  | nil => simp [logNodes]
  | cons n ns ih =>
    cases hn : printNodeInfo render n with
    | error e =>
      have hr : ¬ NodeInfo.renderable n = true := by
        rw [← printNodeInfo_ok_iff render n]; simp [hn]
      simp [logNodes, hn, hr]
    | ok t =>
      have hr : NodeInfo.renderable n = true := by
        rw [← printNodeInfo_ok_iff render n]; exact ⟨t, hn⟩
      simp [logNodes, hn, hr, ih]

theorem logNodes_frame {R : Type} (render : R → String) (ns : List (Ptr (NodeInfo R)))
    (s : State R) :
    (logNodes render ns s).2.cache = s.cache ∧ (logNodes render ns s).2.podQueue = s.podQueue
      ∧ ∃ e, (logNodes render ns s).2.log = s.log ++ e := by
  induction ns generalizing s with
  | nil => exact ⟨rfl, rfl, [], by simp [logNodes]⟩
  | cons n ns ih =>
    cases hn : printNodeInfo render n with
    | error e => exact ⟨by simp [logNodes, hn], by simp [logNodes, hn], [], by simp [logNodes, hn]⟩
    | ok t =>
      obtain ⟨h1, h2, e, h3⟩ := ih (s.glogInfo t)
      refine ⟨by simp [logNodes, hn, h1], by simp [logNodes, hn, h2], t :: e, ?_⟩
      simp [logNodes, hn, h3]

theorem DumpNodes_ok {R : Type} (render : R → String) (s : State R) (ts : List String)
    (h : List.Forall₂ (fun n t => printNodeInfo render n = .ok t) s.cache ts) :
    DumpNodes render s = (.ok (), { s with log := s.log ++ "Dump of cached NodeInfo" :: ts }) := by
  simp [DumpNodes, logNodes_ok render s.cache ts h, State.glogInfo]

theorem DumpSchedulingQueue_ok {R : Type} (s : State R) (ts : List String)
    (h : List.Forall₂ (fun p t => printPod p = .ok t) s.podQueue ts) :
    DumpSchedulingQueue s
      = (.ok (), { s with log := s.log ++ ["Dump of scheduling queue:" ++ "\n" ++ String.join ts] }) := by
  simp only [DumpSchedulingQueue, writePods_ok s.podQueue ts h, State.glogInfo, Sprintf]
  congr 4
  apply String.ext
  simp [sprintfChars]

theorem DumpNodes_frame {R : Type} (render : R → String) (s : State R) :
    (DumpNodes render s).2.cache = s.cache ∧ (DumpNodes render s).2.podQueue = s.podQueue
      ∧ ∃ e, (DumpNodes render s).2.log = s.log ++ e := by
  obtain ⟨h1, h2, e, h3⟩ := logNodes_frame render s.cache (s.glogInfo "Dump of cached NodeInfo")
  refine ⟨by simpa [DumpNodes] using h1, by simpa [DumpNodes] using h2,
    "Dump of cached NodeInfo" :: e, ?_⟩
  simpa [DumpNodes] using h3

theorem DumpSchedulingQueue_frame {R : Type} (s : State R) :
    (DumpSchedulingQueue s).2.cache = s.cache ∧ (DumpSchedulingQueue s).2.podQueue = s.podQueue
      ∧ ∃ e, (DumpSchedulingQueue s).2.log = s.log ++ e := by
  cases h : writePods s.podQueue "" with
  | error e => exact ⟨by simp [DumpSchedulingQueue, h], by simp [DumpSchedulingQueue, h], [],
      by simp [DumpSchedulingQueue, h]⟩
  | ok t => exact ⟨by simp [DumpSchedulingQueue, h], by simp [DumpSchedulingQueue, h],
      [Sprintf "Dump of scheduling queue:\n%s" [t]], by simp only [DumpSchedulingQueue, h, glogInfo_log]⟩

theorem DumpAll_frame {R : Type} (render : R → String) (s : State R) :
    (DumpAll render s).2.cache = s.cache ∧ (DumpAll render s).2.podQueue = s.podQueue
      ∧ ∃ e, (DumpAll render s).2.log = s.log ++ e := by
  obtain ⟨h1, h2, e, h3⟩ := DumpNodes_frame render s
  rcases hd : DumpNodes render s with ⟨r, s1⟩
  rw [hd] at h1 h2 h3
  simp only at h1 h2 h3
  cases r with
  | error err => exact ⟨by simp [DumpAll, hd, h1], by simp [DumpAll, hd, h2], e, by simp [DumpAll, hd, h3]⟩
  | ok u =>
    obtain ⟨g1, g2, e2, g3⟩ := DumpSchedulingQueue_frame s1
    refine ⟨by simp [DumpAll, hd, g1, h1], by simp [DumpAll, hd, g2, h2], e ++ e2, ?_⟩
    simp [DumpAll, hd, g3, h3]

theorem DumpAll_ok {R : Type} (render : R → String) (s : State R) (ts us : List String)
    (hn : List.Forall₂ (fun n t => printNodeInfo render n = .ok t) s.cache ts)
    (hq : List.Forall₂ (fun p t => printPod p = .ok t) s.podQueue us) :
    DumpAll render s
      = (.ok (), { s with log := s.log ++ ("Dump of cached NodeInfo" :: ts
          ++ ["Dump of scheduling queue:" ++ "\n" ++ String.join us]) }) := by
  have h2 := DumpSchedulingQueue_ok
    ({ s with log := s.log ++ "Dump of cached NodeInfo" :: ts } : State R) us hq
  simp only [DumpAll, DumpNodes_ok render s ts hn, h2]
  simp

theorem DumpSchedulingQueue_ok_iff {R : Type} (s : State R) :
    (DumpSchedulingQueue s).1 = .ok () ↔ s.podQueue.all Option.isSome = true := by
  rw [← writePods_ok_iff s.podQueue ""]
  cases h : writePods s.podQueue "" with
  | error e => simp [DumpSchedulingQueue, h]
  | ok t => simp [DumpSchedulingQueue, h]

theorem DumpAll_ok_iff {R : Type} (render : R → String) (s : State R) :
    (DumpAll render s).1 = .ok () ↔ s.renderable = true := by
  have hn := logNodes_ok_iff render s.cache (s.glogInfo "Dump of cached NodeInfo")
  obtain ⟨-, h2, -⟩ := DumpNodes_frame render s
  have hd : DumpNodes render s = logNodes render s.cache (s.glogInfo "Dump of cached NodeInfo") := rfl
  rw [← hd] at hn
  rcases hr : DumpNodes render s with ⟨r, s1⟩
  rw [hr] at hn h2
  simp only at hn h2
  cases r with
  | error err =>
    have : ¬ s.cache.all NodeInfo.renderable = true := by rw [← hn]; simp
    simp only [DumpAll, hr, State.renderable, Bool.and_eq_true]
    constructor
    · intro h; cases h
    · intro h; exact absurd h.1 this
  | ok u =>
    have : s.cache.all NodeInfo.renderable = true := hn.mp rfl
    simp only [DumpAll, hr, State.renderable, Bool.and_eq_true, DumpSchedulingQueue_ok_iff, h2, this,
      true_and]

/-! ## The formatters: layout -/

/-- C5: for every pod `p`, `printPod` returns the five fields in the fixed
order name, namespace, uid, phase, nominated node, each after its label, and a
final newline; the pod `p2` of the scenario renders as the line of the
specification. -/
theorem printPod_layout :
    (∀ p : Pod, printPod (some p)
      = .ok ("name: " ++ p.Name ++ ", namespace: " ++ p.Namespace ++ ", uid: " ++ p.UID
          ++ ", phase: " ++ p.Phase ++ ", nominated node: " ++ p.NominatedNodeName ++ "\n"))
    ∧ printPod (some ⟨"p2", "ns2", "u2", "Pending", "n1"⟩)
      = .ok "name: p2, namespace: ns2, uid: u2, phase: Pending, nominated node: n1\n" :=
  ⟨printPod_some, rfl⟩

/-- C6: a pod whose nominated node name is empty still renders all five
labelled slots, the last one empty: the text ends with `, nominated node: `
and the newline. -/
theorem printPod_unset_nominated (p : Pod) (h : p.NominatedNodeName = "") :
    printPod (some p)
      = .ok ("name: " ++ p.Name ++ ", namespace: " ++ p.Namespace ++ ", uid: " ++ p.UID
          ++ ", phase: " ++ p.Phase ++ ", nominated node: " ++ "" ++ "\n")
    ∧ ∃ pre t, printPod (some p) = .ok t ∧ t = pre ++ ", nominated node: \n" := by
  refine ⟨by rw [printPod_some, h], ?_⟩
  refine ⟨"name: " ++ p.Name ++ ", namespace: " ++ p.Namespace ++ ", uid: " ++ p.UID
          ++ ", phase: " ++ p.Phase, _, printPod_some p, ?_⟩
  rw [h]
  apply String.ext
  simp

/-- The pod `p1` of the scenario, whose nominated node is unset, renders with
the empty slot. -/
theorem printPod_unset_nominated_witness :
    podP1.NominatedNodeName = ""
    ∧ printPod (some podP1)
      = .ok "name: p1, namespace: ns1, uid: u1, phase: Running, nominated node: \n" :=
  ⟨rfl, (printPod_unset_nominated podP1 rfl).1⟩

/-- C4: a node record whose node object is `nd` and whose pods render as the
texts `ts` is rendered as its name, requested vector, allocatable vector and
pod count, each after its label, then `Pods:` and the texts of the pods in
order; the count printed is the length of the pod sequence and the number of
pod texts; without pods the text ends with the count `0` and `Pods:`. -/
theorem printNodeInfo_layout {R : Type} (render : R → String) (info : NodeInfo R) (nd : Node)
    (ts : List String) (hnode : info.node = some nd)
    (hpods : List.Forall₂ (fun p t => printPod p = .ok t) info.pods ts) :
    printNodeInfo render (some info)
      = .ok ("\nNode name: " ++ nd.Name ++ "\nRequested Resources: "
          ++ render info.requestedResource ++ "\nAllocatable Resources:"
          ++ render info.allocatableResource ++ "\nNumber of Pods: "
          ++ toString info.pods.length ++ "\nPods:\n" ++ String.join ts)
    ∧ ts.length = info.pods.length
    ∧ (info.pods = [] → printNodeInfo render (some info)
        = .ok ("\nNode name: " ++ nd.Name ++ "\nRequested Resources: "
          ++ render info.requestedResource ++ "\nAllocatable Resources:"
          ++ render info.allocatableResource ++ "\nNumber of Pods: 0\nPods:\n")) := by
  refine ⟨?_, hpods.length_eq.symm, ?_⟩
  · rw [printNodeInfo_set render info nd hnode, writePods_ok info.pods ts hpods]
  · intro h0
    rw [printNodeInfo_set render info nd hnode, h0]
    simp only [writePods, List.length_nil]
    congr 1
    apply String.ext
    simp
    rfl

/-- The node `n1` of the scenario: one pod, rendered after the four header
fields. -/
theorem printNodeInfo_layout_witness :
    nodeN1.node = some ⟨"n1"⟩
    ∧ List.Forall₂ (fun p t => printPod p = .ok t) nodeN1.pods
        ["name: p1, namespace: ns1, uid: u1, phase: Running, nominated node: \n"]
    ∧ printNodeInfo (fun r : String => r) (some nodeN1)
      = .ok ("\nNode name: " ++ "n1" ++ "\nRequested Resources: " ++ "cpu:2"
          ++ "\nAllocatable Resources:" ++ "cpu:4" ++ "\nNumber of Pods: " ++ toString 1
          ++ "\nPods:\n"
          ++ String.join ["name: p1, namespace: ns1, uid: u1, phase: Running, nominated node: \n"]) :=
  ⟨rfl, List.Forall₂.cons rfl List.Forall₂.nil,
    (printNodeInfo_layout (fun r : String => r) nodeN1 ⟨"n1"⟩ _ rfl
      (List.Forall₂.cons rfl List.Forall₂.nil)).1⟩

/-! ## The dumper: what is logged -/

/-- C1, as stated, fails: on a snapshot whose one node record has its node
object unset, `DumpNodes` logs the header and panics in `printNodeInfo`: one
statement for `N = 1`, not `N + 1 = 2`. -/
theorem DumpNodes_panics_on_unset_node :
    DumpNodes (fun r : String => r) ⟨[some nodeUnset], [], []⟩
      = (.error .nilDereference, ⟨[some nodeUnset], [], ["Dump of cached NodeInfo"]⟩)
    ∧ (DumpNodes (fun r : String => r) ⟨[some nodeUnset], [], []⟩).2.log.length
      ≠ [some nodeUnset].length + 1 :=
  ⟨rfl, by decide⟩

/-- C1, amended: when the `N` node records of the snapshot render as the texts
`ts` (each has its node object set and no nil pod pointer), `DumpNodes` returns
having appended to the log the header `Dump of cached NodeInfo` and then the
texts, one statement per node in the order of the snapshot: `N + 1`
statements. For an empty snapshot the header is the only statement. -/
theorem DumpNodes_statements {R : Type} (render : R → String) (s : State R) (ts : List String)
    (h : List.Forall₂ (fun n t => printNodeInfo render n = .ok t) s.cache ts) :
    DumpNodes render s = (.ok (), { s with log := s.log ++ "Dump of cached NodeInfo" :: ts })
    ∧ ("Dump of cached NodeInfo" :: ts).length = s.cache.length + 1
    ∧ (s.cache = [] →
        DumpNodes render s = (.ok (), { s with log := s.log ++ ["Dump of cached NodeInfo"] })) := by
  refine ⟨DumpNodes_ok render s ts h, by simp [h.length_eq], ?_⟩
  intro h0
  rw [h0] at h
  cases h
  exact DumpNodes_ok render s [] (by rw [h0]; exact List.Forall₂.nil)

/-- The scenario: the header, then the block of node `n1`. -/
theorem DumpNodes_statements_witness :
    List.Forall₂ (fun n t => printNodeInfo (fun r : String => r) n = .ok t) scenario.cache
      ["\nNode name: n1\nRequested Resources: cpu:2\nAllocatable Resources:cpu:4\nNumber of Pods: 1\nPods:\nname: p1, namespace: ns1, uid: u1, phase: Running, nominated node: \n"]
    ∧ DumpNodes (fun r : String => r) scenario
      = (.ok (), { scenario with log := scenario.log ++ ["Dump of cached NodeInfo",
          "\nNode name: n1\nRequested Resources: cpu:2\nAllocatable Resources:cpu:4\nNumber of Pods: 1\nPods:\nname: p1, namespace: ns1, uid: u1, phase: Running, nominated node: \n"] }) :=
  ⟨List.Forall₂.cons rfl List.Forall₂.nil,
    (DumpNodes_statements (fun r : String => r) scenario _
      (List.Forall₂.cons rfl List.Forall₂.nil)).1⟩

/-- C2, as stated, fails: on the queue holding the pod `p2` and then a nil pod
pointer, `DumpSchedulingQueue` panics in `printPod` while the buffer is being
built, before its one `glog.Infof`: no statement is logged. -/
theorem DumpSchedulingQueue_panics_on_nil_pod :
    DumpSchedulingQueue (⟨[], [some podP2, none], []⟩ : State String)
      = (.error .nilDereference, ⟨[], [some podP2, none], []⟩) :=
  rfl

/-- C2, amended: when the entries `p_1 .. p_M` of the queue render as the texts
`ts` (none is a nil pointer), `DumpSchedulingQueue` returns having appended
exactly one statement: the header `Dump of scheduling queue:`, a newline, and
the `M` texts in queue order. For an empty queue the statement is the header
and the newline alone. -/
theorem DumpSchedulingQueue_statement {R : Type} (s : State R) (ts : List String)
    (h : List.Forall₂ (fun p t => printPod p = .ok t) s.podQueue ts) :
    DumpSchedulingQueue s
      = (.ok (), { s with log := s.log ++ ["Dump of scheduling queue:" ++ "\n" ++ String.join ts] })
    ∧ ts.length = s.podQueue.length
    ∧ (s.podQueue = [] →
        DumpSchedulingQueue s = (.ok (), { s with log := s.log ++ ["Dump of scheduling queue:\n"] })) := by
  refine ⟨DumpSchedulingQueue_ok s ts h, h.length_eq.symm, ?_⟩
  intro h0
  rw [h0] at h
  cases h
  exact DumpSchedulingQueue_ok s [] (by rw [h0]; exact List.Forall₂.nil)

/-- The scenario: one statement, the header and the line of `p2`. -/
theorem DumpSchedulingQueue_statement_witness :
    List.Forall₂ (fun p t => printPod p = .ok t) scenario.podQueue
      ["name: p2, namespace: ns2, uid: u2, phase: Pending, nominated node: n1\n"]
    ∧ DumpSchedulingQueue scenario
      = (.ok (), { scenario with log := scenario.log ++
          ["Dump of scheduling queue:\nname: p2, namespace: ns2, uid: u2, phase: Pending, nominated node: n1\n"] }) :=
  ⟨List.Forall₂.cons rfl List.Forall₂.nil,
    (DumpSchedulingQueue_statement scenario _ (List.Forall₂.cons rfl List.Forall₂.nil)).1⟩

/-- C8, as stated, fails: on the snapshot of node `n1` followed by a record
whose node object is unset, with `p2` queued, `DumpAll` logs the header and the
block of `n1` and panics: two statements for `N = 2`, not `N + 2 = 4`, and the
queue dump is not emitted. -/
theorem DumpAll_stops_before_queue_dump :
    DumpAll (fun r : String => r) ⟨[some nodeN1, some nodeUnset], [some podP2], []⟩
      = (.error .nilDereference, ⟨[some nodeN1, some nodeUnset], [some podP2],
          ["Dump of cached NodeInfo",
            "\nNode name: n1\nRequested Resources: cpu:2\nAllocatable Resources:cpu:4\nNumber of Pods: 1\nPods:\nname: p1, namespace: ns1, uid: u1, phase: Running, nominated node: \n"]⟩)
    ∧ (DumpAll (fun r : String => r)
        ⟨[some nodeN1, some nodeUnset], [some podP2], []⟩).2.log.length
      ≠ [some nodeN1, some nodeUnset].length + 2 :=
  ⟨rfl, by decide⟩

/-- C8, amended: when the `N` node records render as `ts` and the queue entries
as `us` (every node object set, no nil pod pointer), the statements `DumpAll`
appends are those of `DumpNodes` (header and `N` blocks) followed by the one
statement of `DumpSchedulingQueue`: `N + 2` in all; the queue statement is
there also when the snapshot is empty. -/
theorem DumpAll_order {R : Type} (render : R → String) (s : State R) (ts us : List String)
    (hn : List.Forall₂ (fun n t => printNodeInfo render n = .ok t) s.cache ts)
    (hq : List.Forall₂ (fun p t => printPod p = .ok t) s.podQueue us) :
    DumpNodes render s = (.ok (), { s with log := s.log ++ "Dump of cached NodeInfo" :: ts })
    ∧ DumpSchedulingQueue s
      = (.ok (), { s with log := s.log ++ ["Dump of scheduling queue:" ++ "\n" ++ String.join us] })
    ∧ DumpAll render s
      = (.ok (), { s with log := s.log ++ ("Dump of cached NodeInfo" :: ts
          ++ ["Dump of scheduling queue:" ++ "\n" ++ String.join us]) })
    ∧ ("Dump of cached NodeInfo" :: ts
          ++ ["Dump of scheduling queue:" ++ "\n" ++ String.join us]).length = s.cache.length + 2
    ∧ (s.cache = [] → DumpAll render s
        = (.ok (), { s with log := s.log ++ ["Dump of cached NodeInfo",
            "Dump of scheduling queue:" ++ "\n" ++ String.join us] })) := by
  refine ⟨DumpNodes_ok render s ts hn, DumpSchedulingQueue_ok s us hq,
    DumpAll_ok render s ts us hn hq, by simp [hn.length_eq], ?_⟩
  intro h0
  have h := DumpAll_ok render s ts us hn hq
  rw [h0] at hn
  cases hn
  exact h

/-- The scenario: header, block of `n1`, then the queue statement. -/
theorem DumpAll_order_witness :
    List.Forall₂ (fun n t => printNodeInfo (fun r : String => r) n = .ok t) scenario.cache
      ["\nNode name: n1\nRequested Resources: cpu:2\nAllocatable Resources:cpu:4\nNumber of Pods: 1\nPods:\nname: p1, namespace: ns1, uid: u1, phase: Running, nominated node: \n"]
    ∧ List.Forall₂ (fun p t => printPod p = .ok t) scenario.podQueue
      ["name: p2, namespace: ns2, uid: u2, phase: Pending, nominated node: n1\n"]
    ∧ (DumpAll (fun r : String => r) scenario).2.log
      = ["Dump of cached NodeInfo",
          "\nNode name: n1\nRequested Resources: cpu:2\nAllocatable Resources:cpu:4\nNumber of Pods: 1\nPods:\nname: p1, namespace: ns1, uid: u1, phase: Running, nominated node: \n",
          "Dump of scheduling queue:\nname: p2, namespace: ns2, uid: u2, phase: Pending, nominated node: n1\n"] :=
  ⟨List.Forall₂.cons rfl List.Forall₂.nil, List.Forall₂.cons rfl List.Forall₂.nil,
    congrArg (fun r => r.2.log)
      (DumpAll_order (fun r : String => r) scenario _ _
        (List.Forall₂.cons rfl List.Forall₂.nil) (List.Forall₂.cons rfl List.Forall₂.nil)).2.2.1⟩

/-- C9: `DumpAll`, `DumpNodes` and `DumpSchedulingQueue` leave the cache
contents and the queue contents as they were, and the log they leave is the
earlier log with statements appended, whether they return or panic. -/
theorem dump_read_only {R : Type} (render : R → String) (s : State R) :
    ((DumpAll render s).2.cache = s.cache ∧ (DumpAll render s).2.podQueue = s.podQueue
      ∧ ∃ e, (DumpAll render s).2.log = s.log ++ e)
    ∧ ((DumpNodes render s).2.cache = s.cache ∧ (DumpNodes render s).2.podQueue = s.podQueue
      ∧ ∃ e, (DumpNodes render s).2.log = s.log ++ e)
    ∧ ((DumpSchedulingQueue s).2.cache = s.cache ∧ (DumpSchedulingQueue s).2.podQueue = s.podQueue
      ∧ ∃ e, (DumpSchedulingQueue s).2.log = s.log ++ e) :=
  ⟨DumpAll_frame render s, DumpNodes_frame render s, DumpSchedulingQueue_frame s⟩

/-! ## The dumper: faults -/

/-- C3, as stated, fails: on a snapshot whose one node record has its node
object unset, `DumpAll` logs the header of the node dump and panics on the nil
dereference of `n.Node().Name`; the queue dump is not reached. -/
theorem DumpAll_panics_on_unset_node :
    DumpAll (fun r : String => r) ⟨[some nodeUnset], [some podP2], []⟩
      = (.error .nilDereference, ⟨[some nodeUnset], [some podP2], ["Dump of cached NodeInfo"]⟩) :=
  rfl

/-- C3, amended: `DumpAll` runs to completion exactly on the states in which
every node record has its node object set and no pod pointer, of a node record
or of the queue, is nil; the values of the string fields, empty ones included,
play no part. -/
theorem DumpAll_completes_iff {R : Type} (render : R → String) (s : State R) :
    (DumpAll render s).1 = .ok () ↔ s.renderable = true :=
  DumpAll_ok_iff render s

/-- The scenario of the specification has every node object set and no nil
pod pointer, and `DumpAll` completes on it. -/
theorem DumpAll_completes_iff_witness :
    scenario.renderable = true ∧ (DumpAll (fun r : String => r) scenario).1 = .ok () :=
  ⟨rfl, (DumpAll_completes_iff (fun r : String => r) scenario).mpr rfl⟩

/-! ## One pod, one line -/

theorem split_at_first {α : Type} {c : α} {a a' r r' : List α} (ha : c ∉ a) (ha' : c ∉ a')
    (h : a ++ c :: r = a' ++ c :: r') : a = a' ∧ r = r' := by
  induction a generalizing a' with
  | nil =>
    cases a' with
    | nil => simpa using h
    | cons x xs =>
      simp only [List.nil_append, List.cons_append, List.cons.injEq] at h
      exact absurd (h.1 ▸ List.mem_cons_self _ _) ha'
  | cons y ys ih =>
    cases a' with
    | nil =>
      simp only [List.nil_append, List.cons_append, List.cons.injEq] at h
      exact absurd (h.1 ▸ List.mem_cons_self _ _) ha
    | cons x xs =>
      simp only [List.cons_append, List.cons.injEq] at h
      obtain ⟨h1, h2⟩ := ih (fun hm => ha (List.mem_cons_of_mem _ hm))
        (fun hm => ha' (List.mem_cons_of_mem _ hm)) h.2
      exact ⟨by rw [h.1, h1], h2⟩

theorem line_newlines (p : Pod) (h : ∀ f ∈ p.fields, '\n' ∉ f.data) :
    ("name: " ++ p.Name ++ ", namespace: " ++ p.Namespace ++ ", uid: " ++ p.UID
        ++ ", phase: " ++ p.Phase ++ ", nominated node: " ++ p.NominatedNodeName ++ "\n").data.count '\n'
      = 1 := by
  have h1 := List.count_eq_zero.2 (h p.Name (by simp [Pod.fields]))
  have h2 := List.count_eq_zero.2 (h p.Namespace (by simp [Pod.fields]))
  have h3 := List.count_eq_zero.2 (h p.UID (by simp [Pod.fields]))
  have h4 := List.count_eq_zero.2 (h p.Phase (by simp [Pod.fields]))
  have h5 := List.count_eq_zero.2 (h p.NominatedNodeName (by simp [Pod.fields]))
  simp [List.count_append, List.count_cons, h1, h2, h3, h4, h5]

theorem line_last (p : Pod) :
    ("name: " ++ p.Name ++ ", namespace: " ++ p.Namespace ++ ", uid: " ++ p.UID
        ++ ", phase: " ++ p.Phase ++ ", nominated node: " ++ p.NominatedNodeName ++ "\n").data.getLast?
      = some '\n' := by
  rw [String.data_append]
  exact List.getLast?_concat _

theorem writePods_newlines (ps : List Pod) (h : ∀ p ∈ ps, ∀ f ∈ p.fields, '\n' ∉ f.data)
    (b : String) :
    ∃ body, writePods (ps.map some) b = .ok body
      ∧ body.data.count '\n' = b.data.count '\n' + ps.length := by
  induction ps generalizing b with
  | nil => exact ⟨b, rfl, by simp⟩
  | cons p ps ih =>
    obtain ⟨body, hb, hc⟩ := ih (fun q hq => h q (List.mem_cons_of_mem _ hq))
      (b ++ ("name: " ++ p.Name ++ ", namespace: " ++ p.Namespace ++ ", uid: " ++ p.UID
        ++ ", phase: " ++ p.Phase ++ ", nominated node: " ++ p.NominatedNodeName ++ "\n"))
    refine ⟨body, ?_, ?_⟩
    · simp only [List.map_cons, writePods, printPod_some, bind, Except.bind, hb]
    · rw [hc, String.data_append, List.count_append, line_newlines p (h p (List.mem_cons_self _ _))]
      simp only [List.length_cons]
      omega

/-- C7, as stated, fails: the pod named `a`, newline, `b` is rendered with two
newline characters, one inside the line and one at its end. -/
theorem printPod_two_newlines :
    printPod (some podTwoLines)
      = .ok "name: a\nb, namespace: ns, uid: u, phase: Running, nominated node: \n"
    ∧ List.count '\n'
        "name: a\nb, namespace: ns, uid: u, phase: Running, nominated node: \n".data = 2 :=
  ⟨rfl, by decide⟩

/-- C7, amended: for a pod none of whose five fields holds a newline,
`printPod` returns a text whose last character is a newline and which holds no
other newline; the body written for a queue of `M` such pods holds exactly `M`
newlines. -/
theorem printPod_one_line :
    (∀ p : Pod, (∀ f ∈ p.fields, '\n' ∉ f.data) →
      ∃ t, printPod (some p) = .ok t ∧ t.data.getLast? = some '\n' ∧ t.data.count '\n' = 1)
    ∧ (∀ ps : List Pod, (∀ p ∈ ps, ∀ f ∈ p.fields, '\n' ∉ f.data) →
      ∃ body, writePods (ps.map some) "" = .ok body ∧ body.data.count '\n' = ps.length) := by
  refine ⟨fun p h => ⟨_, printPod_some p, line_last p, line_newlines p h⟩, fun ps h => ?_⟩
  obtain ⟨body, hb, hc⟩ := writePods_newlines ps h ""
  exact ⟨body, hb, by simpa using hc⟩

/-- The pod `p2` of the scenario has no newline in its fields and renders as
one line. -/
theorem printPod_one_line_witness :
    (∀ f ∈ podP2.fields, '\n' ∉ f.data)
    ∧ ∃ t, printPod (some podP2) = .ok t ∧ t.data.getLast? = some '\n' ∧ t.data.count '\n' = 1 :=
  ⟨by decide, printPod_one_line.1 podP2 (by decide)⟩

/-! ## Reading a line back -/

theorem line_inj (p q : Pod) (hp : ∀ f ∈ p.fields, ',' ∉ f.data) (hq : ∀ f ∈ q.fields, ',' ∉ f.data)
    (h : printPod (some p) = printPod (some q)) :
    p.Name = q.Name ∧ p.Namespace = q.Namespace ∧ p.UID = q.UID ∧ p.Phase = q.Phase
      ∧ p.NominatedNodeName = q.NominatedNodeName := by
  rw [printPod_some, printPod_some] at h
  have hd := congrArg String.data (Except.ok.inj h)
  simp only [String.data_append] at hd
  simp at hd
  obtain ⟨e1, hd⟩ := split_at_first (hp p.Name (by simp [Pod.fields]))
    (hq q.Name (by simp [Pod.fields])) hd
  simp at hd
  obtain ⟨e2, hd⟩ := split_at_first (hp p.Namespace (by simp [Pod.fields]))
    (hq q.Namespace (by simp [Pod.fields])) hd
  simp at hd
  obtain ⟨e3, hd⟩ := split_at_first (hp p.UID (by simp [Pod.fields]))
    (hq q.UID (by simp [Pod.fields])) hd
  simp at hd
  obtain ⟨e4, hd⟩ := split_at_first (hp p.Phase (by simp [Pod.fields]))
    (hq q.Phase (by simp [Pod.fields])) hd
  simp at hd
  exact ⟨String.ext e1, String.ext e2, String.ext e3, String.ext e4, String.ext hd⟩

/-- C10: on pods whose five rendered fields hold neither a comma nor a
newline, `printPod` is injective: equal lines have equal fields, pairwise.
Without the restriction it is not: the pod named `a, namespace: b` in
namespace `c` and the pod named `a` in namespace `b, namespace: c` differ in
name and in namespace and render as the same line. -/
theorem printPod_injective_on_plain_fields :
    (∀ p q : Pod, (∀ f ∈ p.fields, ',' ∉ f.data ∧ '\n' ∉ f.data) →
      (∀ f ∈ q.fields, ',' ∉ f.data ∧ '\n' ∉ f.data) →
      printPod (some p) = printPod (some q) →
      p.Name = q.Name ∧ p.Namespace = q.Namespace ∧ p.UID = q.UID ∧ p.Phase = q.Phase
        ∧ p.NominatedNodeName = q.NominatedNodeName)
    ∧ (podCommaName.Name ≠ podCommaNamespace.Name
      ∧ podCommaName.Namespace ≠ podCommaNamespace.Namespace
      ∧ printPod (some podCommaName) = printPod (some podCommaNamespace)) :=
  ⟨fun p q hp hq h => line_inj p q (fun f hf => (hp f hf).1) (fun f hf => (hq f hf).1) h,
    by decide, by decide, rfl⟩

/-- The pods `p1` and `p1` of the scenario: plain fields, equal lines, equal
fields. -/
theorem printPod_injective_on_plain_fields_witness :
    (∀ f ∈ podP1.fields, ',' ∉ f.data ∧ '\n' ∉ f.data)
    ∧ printPod (some podP1) = printPod (some ⟨"p1", "ns1", "u1", "Running", ""⟩)
    ∧ podP1.Name = "p1" ∧ podP1.Namespace = "ns1" ∧ podP1.UID = "u1" ∧ podP1.Phase = "Running"
        ∧ podP1.NominatedNodeName = "" :=
  ⟨by decide, rfl,
    printPod_injective_on_plain_fields.1 podP1 ⟨"p1", "ns1", "u1", "Running", ""⟩
      (by decide) (by decide) rfl⟩

end Debugger
